import Mathlib

/-!
Verification of the RiceGuard detection post-processing pipeline
(`src/backend/main.py`) against its natural-language specification.

Shallow embedding conventions:
* Python floats are modelled as exact rationals (`ℚ`).
* `round(x, n)` is modelled by round-half-to-even on the scaled rational
  (Python's documented rounding mode).
* Image bytes are opaque (`List ℕ`); external effects (the HTTP response of
  the remote detector, the boxes returned by the local YOLO model, presence
  of the model artifact on disk) are passed in as explicit parameters, and
  exceptions are modelled with `Except`.
-/

namespace RiceGuard

/-- Round-half-to-even of a rational to an integer (Python `round`). -/
def rndHalfEven (q : ℚ) : ℤ :=
  if q - ⌊q⌋ < 1/2 then ⌊q⌋
  else if 1/2 < q - ⌊q⌋ then ⌊q⌋ + 1
  else if ⌊q⌋ % 2 = 0 then ⌊q⌋ else ⌊q⌋ + 1

/-- Python `round(q, 2)`. -/
def round2 (q : ℚ) : ℚ := (rndHalfEven (q * 100) : ℚ) / 100

/-- Python `round(q, 3)`. -/
def round3 (q : ℚ) : ℚ := (rndHalfEven (q * 1000) : ℚ) / 1000

/-- `np.mean` over a list, with the code's convention that an empty list
gives `0` (the code guards `if scores else 0`). -/
def listMean (l : List ℚ) : ℚ :=
  if l = [] then 0 else l.sum / l.length

/-- One entry of the remote detector's JSON `predictions` array, as read by
`roboflow_infer`: `class`, `confidence` (defaulted to 0.0 when absent — the
default is applied before this record is built), `x`, `y`, `width`, `height`. -/
structure RawPred where
  cls : String
  conf : ℚ
  x : ℚ
  y : ℚ
  width : ℚ
  height : ℚ
deriving DecidableEq, Repr

/-- `cls in ("broken", "broken_grain")` — main.py line 120/139. -/
def isBroken (c : String) : Bool :=
  c == "broken" || c == "broken_grain"

/-- `cls in ("whole", "whole_grain", "full")` — main.py line 122/143. -/
def isWhole (c : String) : Bool :=
  c == "whole" || c == "whole_grain" || c == "full"

/-- `broken_scores`: confidences of the broken-labeled predictions
(main.py lines 117–123). -/
def brokenScores (preds : List RawPred) : List ℚ :=
  (preds.filter fun p => isBroken p.cls).map (·.conf)

/-- `whole_scores`: confidences of the whole-labeled predictions. -/
def wholeScores (preds : List RawPred) : List ℚ :=
  (preds.filter fun p => isWhole p.cls).map (·.conf)

/-- `broken_min = avg_broken * 0.75` (main.py lines 125, 128). -/
def brokenMin (preds : List RawPred) : ℚ :=
  listMean (brokenScores preds) * 0.75

/-- `whole_min = avg_whole * 0.75` (main.py lines 126, 129). -/
def wholeMin (preds : List RawPred) : ℚ :=
  listMean (wholeScores preds) * 0.75

/-- The acceptance test of the second loop of `roboflow_infer`
(main.py lines 135–148): broken-labeled predictions are skipped when
`conf < broken_min`, whole-labeled when `conf < whole_min`, and
unrecognised labels are always skipped. -/
def roboflowAccept (bMin wMin : ℚ) (p : RawPred) : Bool :=
  if isBroken p.cls then !(p.conf < bMin)
  else if isWhole p.cls then !(p.conf < wMin)
  else false

/-- A canonical detection as built by both inference paths:
`{"class": cls, "confidence": round(conf, 3), "bbox": [...]}`. -/
structure Detection where
  cls : String
  confidence : ℚ
  bbox : ℚ × ℚ × ℚ × ℚ
deriving DecidableEq, Repr

/-- `counts = {"whole_grain": 0, "broken_grain": 0}` accumulated per category. -/
structure Counts where
  whole : ℕ
  broken : ℕ
deriving DecidableEq, Repr

/-- Conversion of an accepted remote prediction to a detection
(main.py lines 150–164): the label is canonicalised (the broken branch is
checked first), the confidence rounded to 3 decimals, and the center+size
box converted to clipped corner form. -/
def toDetection (w h : ℚ) (p : RawPred) : Detection :=
  { cls := if isBroken p.cls then "broken_grain" else "whole_grain"
    confidence := round3 p.conf
    bbox := (max 0 (p.x - p.width / 2), max 0 (p.y - p.height / 2),
             min w (p.x + p.width / 2), min h (p.y + p.height / 2)) }

/-- The pure post-processing of `roboflow_infer` (main.py lines 114–169),
applied to the parsed `predictions` list: adaptive thresholds, the
build-up of `detections`, `counts` and `confs` in input order, and the
final `float(np.mean(confs)) if confs else 0.0`. -/
def roboflowInfer (preds : List RawPred) (w h : ℚ) :
    List Detection × Counts × ℚ :=
  let bMin := brokenMin preds
  let wMin := wholeMin preds
  let accepted := preds.filter (roboflowAccept bMin wMin)
  (accepted.map (toDetection w h),
   ⟨(accepted.filter fun p => isWhole p.cls).length,
    (accepted.filter fun p => isBroken p.cls).length⟩,
   listMean (accepted.map (·.conf)))

/-- One box returned by the local YOLO model on the 640×640 resized image
(`r.boxes` with `r.names[int(box.cls[0])]`, `box.conf[0]`, `box.xyxy[0]`). -/
structure YoloBox where
  cls : String
  conf : ℚ
  x1 : ℚ
  y1 : ℚ
  x2 : ℚ
  y2 : ℚ
deriving DecidableEq, Repr

/-- `cls not in counts` check of `yolo_infer` (main.py lines 186–187):
the counts dict has exactly the keys `whole_grain` and `broken_grain`. -/
def yoloRecognized (c : String) : Bool :=
  c == "whole_grain" || c == "broken_grain"

/-- The pure post-processing of `yolo_infer` (main.py lines 174–206):
every box whose name is a counts key is kept unconditionally, its corner
box rescaled from model space (640) back to original image coordinates. -/
def yoloInfer (boxes : List YoloBox) (w h : ℚ) :
    List Detection × Counts × ℚ :=
  let accepted := boxes.filter fun b => yoloRecognized b.cls
  (accepted.map fun b =>
    { cls := b.cls
      confidence := round3 b.conf
      bbox := (b.x1 * w / 640, b.y1 * h / 640, b.x2 * w / 640, b.y2 * h / 640) },
   ⟨(accepted.filter fun b => b.cls == "whole_grain").length,
    (accepted.filter fun b => b.cls == "broken_grain").length⟩,
   listMean (accepted.map (·.conf)))

/-- The error taxonomy of main.py: `FileNotFoundError` raised by
`get_model` when the artifact is absent, `HTTPException(status, detail)`
raised by `roboflow_infer`, `ValueError` raised by `decode_image`. -/
inductive AppError where
  | modelUnavailable
  | http (status : ℕ) (detail : String)
  | invalidImage
deriving DecidableEq, Repr

/-- `get_model` (main.py lines 51–57): raises `FileNotFoundError` iff the
model artifact is absent on disk; otherwise yields the (opaque) model. -/
def get_model (modelPresent : Bool) : Except AppError Unit :=
  if modelPresent then .ok () else .error .modelUnavailable

/-- The local inference variant as run by `analyze`: `yolo_infer` calls
`get_model`, so the artifact being absent surfaces as
`FileNotFoundError`; otherwise the model's boxes are post-processed. -/
def yoloInferRun (modelPresent : Bool) (boxes : List YoloBox) (w h : ℚ) :
    Except AppError (List Detection × Counts × ℚ) :=
  match get_model modelPresent with
  | .error e => .error e
  | .ok _ => .ok (yoloInfer boxes w h)

/-- The remote detector's HTTP response, as far as `roboflow_infer`
inspects it: `response.ok`, `response.status_code`, `response.text`, and
the parsed `predictions` array. -/
structure RoboflowResponse where
  ok : Bool
  status : ℕ
  text : String
  predictions : List RawPred
deriving DecidableEq, Repr

/-- `roboflow_infer` (main.py lines 89–169) with the network interaction
made explicit: the response the service would give is a parameter, so a
result that does not depend on it is reached before any network call.
The guard checks only `ROBOFLOW_API_KEY` (line 90); `ROBOFLOW_MODEL_ID`
is used solely to form the URL. -/
def roboflow_infer_run (apiKey modelId : String) (resp : RoboflowResponse)
    (w h : ℚ) : Except AppError (List Detection × Counts × ℚ) :=
  if apiKey = "" then
    .error (.http 503 "Roboflow API key missing")
  else
    let _url := "https://detect.roboflow.com/" ++ modelId
    if !resp.ok then
      .error (.http 502 ("Roboflow inference failed (status=" ++
        toString resp.status ++ ") body=" ++ resp.text.take 300))
    else
      .ok (roboflowInfer resp.predictions w h)

/-- The response model of the `/analyze` endpoint. `processed_image` bytes
are opaque; the detections drawn on it by `draw_boxes` are recorded as
`drawn` (main.py line 225 annotates exactly the `detections` list). -/
structure AnalysisResult where
  total_grains : ℕ
  whole_grains : ℕ
  broken_grains : ℕ
  broken_percentage : ℚ
  avg_model_confidence : ℚ
  drawn : List Detection
deriving DecidableEq, Repr

/-- The aggregation tail of `analyze` (main.py lines 222–235): `total =
len(detections)`, the percentage ternary, and the two roundings. -/
def mkAnalysisResult (dets : List Detection) (counts : Counts) (avgConf : ℚ) :
    AnalysisResult :=
  let total := dets.length
  { total_grains := total
    whole_grains := counts.whole
    broken_grains := counts.broken
    broken_percentage :=
      round2 (if total ≠ 0 then ((counts.broken : ℚ) / total) * 100 else 0)
    avg_model_confidence := round3 avgConf
    drawn := dets }

/-- The `try/except FileNotFoundError` orchestration of `analyze`
(main.py lines 217–220): the local result is used when it succeeds; the
remote path is consulted only on `FileNotFoundError`; any other local
error, and any remote error, propagates. -/
def analyzeCombine
    (localR remoteR : Except AppError (List Detection × Counts × ℚ)) :
    Except AppError AnalysisResult :=
  match localR with
  | .ok (d, c, a) => .ok (mkAnalysisResult d c a)
  | .error .modelUnavailable =>
      match remoteR with
      | .ok (d, c, a) => .ok (mkAnalysisResult d c a)
      | .error e => .error e
  | .error e => .error e

/-- The `/analyze` endpoint (main.py lines 211–235) after image decode,
with the external collaborators (artifact presence, the local model's
boxes, the remote configuration and response) passed in explicitly. -/
def analyze (modelPresent : Bool) (boxes : List YoloBox)
    (apiKey modelId : String) (resp : RoboflowResponse) (w h : ℚ) :
    Except AppError AnalysisResult :=
  analyzeCombine (yoloInferRun modelPresent boxes w h)
    (roboflow_infer_run apiKey modelId resp w h)

/-- `resize_image_for_roboflow` (main.py lines 68–76) on an image whose
decoded dimensions are `h × w`: returns the input bytes unchanged
(`Sum.inl`) when the long side is within bounds, and otherwise re-encodes
at the truncated scaled dimensions `(int(w*scale), int(h*scale))`
(`Sum.inr (newW, newH)`); the re-encoded jpg bytes themselves are opaque. -/
def resize_image_for_roboflow (imageBytes : List ℕ) (h w : ℕ)
    (maxLongSide : ℕ := 1280) : List ℕ ⊕ ℕ × ℕ :=
  if max h w ≤ maxLongSide then
    Sum.inl imageBytes
  else
    let scale : ℚ := (maxLongSide : ℚ) / (max h w : ℚ)
    Sum.inr ((⌊(w : ℚ) * scale⌋).toNat, (⌊(h : ℚ) * scale⌋).toNat)

/-! ### Helper lemmas -/

theorem isBroken_not_isWhole {c : String} (hb : isBroken c = true) :
    isWhole c = false := by
  simp only [isBroken, Bool.or_eq_true, beq_iff_eq] at hb
  rcases hb with rfl | rfl <;> decide

theorem filter_length_partition {α : Type} (p q : α → Bool) (l : List α)
    (hcov : ∀ x ∈ l, p x = true ∨ q x = true)
    (hdis : ∀ x ∈ l, p x = true → q x = false) :
    (l.filter p).length + (l.filter q).length = l.length := by
  induction l with
  | nil => simp
  | cons a t ih =>
    have hcov' : ∀ x ∈ t, p x = true ∨ q x = true :=
      fun x hx => hcov x (List.mem_cons_of_mem a hx)
    have hdis' : ∀ x ∈ t, p x = true → q x = false :=
      fun x hx => hdis x (List.mem_cons_of_mem a hx)
    have hih := ih hcov' hdis'
    rcases hcov a (List.mem_cons_self a t) with hp | hq
    · have hq0 : q a = false := hdis a (List.mem_cons_self a t) hp
      simp [List.filter_cons, hp, hq0]
      omega
    · by_cases hp : p a = true
      · have hq0 : q a = false := hdis a (List.mem_cons_self a t) hp
        simp [hq0] at hq
      · simp only [Bool.not_eq_true] at hp
        simp [List.filter_cons, hp, hq]
        omega

theorem roboflowAccept_recognized {bMin wMin : ℚ} {p : RawPred}
    (h : roboflowAccept bMin wMin p = true) :
    isBroken p.cls = true ∨ isWhole p.cls = true := by
  unfold roboflowAccept at h
  split at h
  · left; assumption
  · split at h
    · right; assumption
    · exact absurd h (by simp)

theorem yoloRecognized_cases {c : String} (h : yoloRecognized c = true) :
    c = "whole_grain" ∨ c = "broken_grain" := by
  simpa [yoloRecognized] using h

/-- `rndHalfEven q` is `⌊q⌋` or `⌊q⌋ + 1`. -/
theorem rndHalfEven_eq_floor_or_succ (q : ℚ) :
    rndHalfEven q = ⌊q⌋ ∨ rndHalfEven q = ⌊q⌋ + 1 := by
  unfold rndHalfEven
  split
  · exact Or.inl rfl
  · split
    · exact Or.inr rfl
    · split
      · exact Or.inl rfl
      · exact Or.inr rfl

theorem rndHalfEven_le (q : ℚ) : (rndHalfEven q : ℚ) ≤ q + 1/2 := by
  have hfl : (⌊q⌋ : ℚ) ≤ q := Int.floor_le q
  unfold rndHalfEven
  split
  · push_cast; linarith
  · rename_i h1
    push_neg at h1
    split
    · rename_i h2
      push_cast
      linarith
    · rename_i h2
      push_neg at h2
      split
      · push_cast; linarith
      · push_cast; linarith

theorem le_rndHalfEven (q : ℚ) : q - 1/2 ≤ (rndHalfEven q : ℚ) := by
  have hfl : (⌊q⌋ : ℚ) ≤ q := Int.floor_le q
  have hfl2 : q < (⌊q⌋ : ℚ) + 1 := Int.lt_floor_add_one q
  unfold rndHalfEven
  split
  · rename_i h1
    push_cast
    linarith
  · rename_i h1
    push_neg at h1
    split
    · push_cast; linarith
    · rename_i h2
      push_neg at h2
      split
      · push_cast; linarith
      · push_cast; linarith

theorem round2_nonneg {q : ℚ} (h : 0 ≤ q) : 0 ≤ round2 q := by
  have h1 : (q * 100) - 1/2 ≤ (rndHalfEven (q * 100) : ℚ) := le_rndHalfEven _
  have h2 : (0 : ℤ) ≤ rndHalfEven (q * 100) := by
    by_contra hh
    push_neg at hh
    have hle : rndHalfEven (q * 100) ≤ -1 := by omega
    have : ((rndHalfEven (q * 100) : ℤ) : ℚ) ≤ ((-1 : ℤ) : ℚ) := by
      exact_mod_cast hle
    push_cast at this
    nlinarith
  unfold round2
  have : (0 : ℚ) ≤ (rndHalfEven (q * 100) : ℚ) := by exact_mod_cast h2
  linarith

theorem round2_le_hundred {q : ℚ} (h : q ≤ 100) : round2 q ≤ 100 := by
  have h1 : (rndHalfEven (q * 100) : ℚ) ≤ (q * 100) + 1/2 := rndHalfEven_le _
  have h2 : rndHalfEven (q * 100) ≤ (10000 : ℤ) := by
    by_contra hh
    push_neg at hh
    have : ((10001 : ℤ) : ℚ) ≤ ((rndHalfEven (q * 100) : ℤ) : ℚ) := by
      exact_mod_cast hh
    push_cast at this
    nlinarith
  unfold round2
  have : (rndHalfEven (q * 100) : ℚ) ≤ 10000 := by exact_mod_cast h2
  linarith

theorem round2_zero : round2 0 = 0 := by
  norm_num [round2, rndHalfEven]

/-- The `accepted` predictions of the remote filter: the counts partition it. -/
theorem roboflow_counts_partition (preds : List RawPred) (w h : ℚ) :
    (roboflowInfer preds w h).2.1.whole + (roboflowInfer preds w h).2.1.broken
      = (roboflowInfer preds w h).1.length := by
  unfold roboflowInfer
  simp only [List.length_map]
  exact filter_length_partition _ _ _
    (fun p hp =>
      ((roboflowAccept_recognized (List.mem_filter.mp hp).2).symm.imp id id))
    (fun p _ hw => by
      by_contra hb
      simp only [Bool.not_eq_false] at hb
      exact absurd (isBroken_not_isWhole hb) (by simp [hw]))

theorem yolo_counts_partition (boxes : List YoloBox) (w h : ℚ) :
    (yoloInfer boxes w h).2.1.whole + (yoloInfer boxes w h).2.1.broken
      = (yoloInfer boxes w h).1.length := by
  unfold yoloInfer
  simp only [List.length_map]
  exact filter_length_partition _ _ _
    (fun b hb => by
      rcases yoloRecognized_cases (List.mem_filter.mp hb).2 with hc | hc <;>
        simp [hc])
    (fun b _ hw => by
      rw [beq_iff_eq] at hw
      simp [hw])

/-- The AnalysisResult `analyze` returns when the remote path supplies the
detections (the composition of lines 220 and 222–235 of main.py). -/
def roboflowResult (preds : List RawPred) (w h : ℚ) : AnalysisResult :=
  mkAnalysisResult (roboflowInfer preds w h).1 (roboflowInfer preds w h).2.1
    (roboflowInfer preds w h).2.2

/-- The AnalysisResult `analyze` returns when the local path supplies the
detections (the composition of lines 218 and 222–235 of main.py). -/
def yoloResult (boxes : List YoloBox) (w h : ℚ) : AnalysisResult :=
  mkAnalysisResult (yoloInfer boxes w h).1 (yoloInfer boxes w h).2.1
    (yoloInfer boxes w h).2.2

/-- `analyze` really produces `yoloResult` when the artifact is present. -/
theorem analyze_local_eq (boxes : List YoloBox) (apiKey modelId : String)
    (resp : RoboflowResponse) (w h : ℚ) :
    analyze true boxes apiKey modelId resp w h = .ok (yoloResult boxes w h) := by
  rfl

/-- `analyze` really produces `roboflowResult` when the artifact is absent
and the remote call succeeds with a nonempty key. -/
theorem analyze_remote_eq (boxes : List YoloBox) (apiKey modelId : String)
    (resp : RoboflowResponse) (w h : ℚ) (hk : apiKey ≠ "")
    (hok : resp.ok = true) :
    analyze false boxes apiKey modelId resp w h
      = .ok (roboflowResult resp.predictions w h) := by
  simp [analyze, analyzeCombine, yoloInferRun, get_model, roboflow_infer_run,
    hk, hok, roboflowResult, roboflowInfer]

theorem roboflow_broken_le_total (preds : List RawPred) (w h : ℚ) :
    (roboflowInfer preds w h).2.1.broken ≤ (roboflowInfer preds w h).1.length := by
  unfold roboflowInfer
  simp only [List.length_map]
  exact List.length_filter_le _ _

theorem yolo_broken_le_total (boxes : List YoloBox) (w h : ℚ) :
    (yoloInfer boxes w h).2.1.broken ≤ (yoloInfer boxes w h).1.length := by
  unfold yoloInfer
  simp only [List.length_map]
  exact List.length_filter_le _ _

/-- The percentage shape and bounds of `mkAnalysisResult`, given that the
broken count is at most the number of detections. -/
theorem mk_broken_percentage_spec (dets : List Detection) (c : Counts) (a : ℚ)
    (hbt : c.broken ≤ dets.length) :
    (mkAnalysisResult dets c a).broken_percentage =
      (if (mkAnalysisResult dets c a).total_grains = 0 then 0
       else round2 (100 * ((mkAnalysisResult dets c a).broken_grains : ℚ) /
         ((mkAnalysisResult dets c a).total_grains : ℚ))) ∧
    0 ≤ (mkAnalysisResult dets c a).broken_percentage ∧
    (mkAnalysisResult dets c a).broken_percentage ≤ 100 := by
  by_cases ht : dets.length = 0
  · simp [mkAnalysisResult, ht, round2_zero]
  · have htq : (0 : ℚ) < (dets.length : ℚ) := by
      exact_mod_cast Nat.pos_of_ne_zero ht
    have hbq : ((c.broken : ℚ)) ≤ (dets.length : ℚ) := by exact_mod_cast hbt
    have hq0 : 0 ≤ 100 * (c.broken : ℚ) / (dets.length : ℚ) := by positivity
    have hq100 : 100 * (c.broken : ℚ) / (dets.length : ℚ) ≤ 100 := by
      rw [div_le_iff₀ htq]
      nlinarith
    have hcomm : ((c.broken : ℚ) / (dets.length : ℚ)) * 100
        = 100 * (c.broken : ℚ) / (dets.length : ℚ) := by ring
    have hred : (mkAnalysisResult dets c a).broken_percentage
        = round2 (100 * (c.broken : ℚ) / (dets.length : ℚ)) := by
      simp [mkAnalysisResult, ht, hcomm]
    refine ⟨?_, ?_, ?_⟩
    · rw [hred]
      simp [mkAnalysisResult, ht]
    · rw [hred]
      exact round2_nonneg hq0
    · rw [hred]
      exact round2_le_hundred hq100

/-! ### Claim theorems -/

/-- C1: For every detection list produced by either detection path, the
AnalysisResult returned by the analyze operation satisfies
`whole_grains + broken_grains = total_grains`, and both counts are
non-negative. -/
theorem C1_whole_add_broken_eq_total (preds : List RawPred)
    (boxes : List YoloBox) (w h : ℚ) :
    (∀ r : AnalysisResult,
        (r = mkAnalysisResult (roboflowInfer preds w h).1
              (roboflowInfer preds w h).2.1 (roboflowInfer preds w h).2.2 ∨
         r = mkAnalysisResult (yoloInfer boxes w h).1
              (yoloInfer boxes w h).2.1 (yoloInfer boxes w h).2.2) →
        r.whole_grains + r.broken_grains = r.total_grains ∧
        0 ≤ r.whole_grains ∧ 0 ≤ r.broken_grains) := by
  rintro r (rfl | rfl)
  · refine ⟨?_, Nat.zero_le _, Nat.zero_le _⟩
    simpa [mkAnalysisResult] using roboflow_counts_partition preds w h
  · refine ⟨?_, Nat.zero_le _, Nat.zero_le _⟩
    simpa [mkAnalysisResult] using yolo_counts_partition boxes w h

/-- C1 witness: the property at a concrete detection list. -/
theorem C1_whole_add_broken_eq_total_witness :
    (mkAnalysisResult (roboflowInfer [⟨"broken", 1/2, 50, 50, 10, 10⟩] 100 100).1
        (roboflowInfer [⟨"broken", 1/2, 50, 50, 10, 10⟩] 100 100).2.1
        (roboflowInfer [⟨"broken", 1/2, 50, 50, 10, 10⟩] 100 100).2.2).whole_grains +
      (mkAnalysisResult (roboflowInfer [⟨"broken", 1/2, 50, 50, 10, 10⟩] 100 100).1
        (roboflowInfer [⟨"broken", 1/2, 50, 50, 10, 10⟩] 100 100).2.1
        (roboflowInfer [⟨"broken", 1/2, 50, 50, 10, 10⟩] 100 100).2.2).broken_grains =
      (mkAnalysisResult (roboflowInfer [⟨"broken", 1/2, 50, 50, 10, 10⟩] 100 100).1
        (roboflowInfer [⟨"broken", 1/2, 50, 50, 10, 10⟩] 100 100).2.1
        (roboflowInfer [⟨"broken", 1/2, 50, 50, 10, 10⟩] 100 100).2.2).total_grains :=
  (C1_whole_add_broken_eq_total [⟨"broken", 1/2, 50, 50, 10, 10⟩] [] 100 100
    _ (Or.inl rfl)).1

/-- C2: For every detection list, the returned broken_percentage equals 0.0
when total_grains = 0, and otherwise equals 100 × broken_grains /
total_grains rounded to 2 decimal places; in all cases it lies in
[0, 100]. Stated for both detection paths. -/
theorem C2_broken_percentage_spec (preds : List RawPred)
    (boxes : List YoloBox) (w h : ℚ) :
    ((roboflowResult preds w h).broken_percentage =
       (if (roboflowResult preds w h).total_grains = 0 then 0
        else round2 (100 * ((roboflowResult preds w h).broken_grains : ℚ) /
          ((roboflowResult preds w h).total_grains : ℚ))) ∧
     0 ≤ (roboflowResult preds w h).broken_percentage ∧
     (roboflowResult preds w h).broken_percentage ≤ 100) ∧
    ((yoloResult boxes w h).broken_percentage =
       (if (yoloResult boxes w h).total_grains = 0 then 0
        else round2 (100 * ((yoloResult boxes w h).broken_grains : ℚ) /
          ((yoloResult boxes w h).total_grains : ℚ))) ∧
     0 ≤ (yoloResult boxes w h).broken_percentage ∧
     (yoloResult boxes w h).broken_percentage ≤ 100) := by
  constructor
  · exact mk_broken_percentage_spec _ _ _ (roboflow_broken_le_total preds w h)
  · exact mk_broken_percentage_spec _ _ _ (yolo_broken_le_total boxes w h)

/-- The acceptance policy as the spec words it: a recognized prediction is
accepted iff its confidence is ≥ 0.75 × the mean confidence of its
category's recognized-label predictions (mean 0.0 when the category is
empty). Written from the spec, to be compared with `roboflowAccept`. -/
def specAccept (preds : List RawPred) (p : RawPred) : Bool :=
  if isBroken p.cls then listMean (brokenScores preds) * 0.75 ≤ p.conf
  else if isWhole p.cls then listMean (wholeScores preds) * 0.75 ≤ p.conf
  else false

theorem roboflowAccept_eq_specAccept (preds : List RawPred) (p : RawPred) :
    roboflowAccept (brokenMin preds) (wholeMin preds) p = specAccept preds p := by
  unfold roboflowAccept specAccept brokenMin wholeMin
  by_cases hb : isBroken p.cls = true
  · simp only [hb, if_pos]
    rw [← decide_not]
    simp [not_lt]
  · by_cases hw : isWhole p.cls = true
    · simp only [hb, hw, if_neg, if_pos, Bool.false_eq_true, not_false_iff]
      rw [← decide_not]
      simp [not_lt]
    · simp [hb, hw]

/-- The three predictions of the spec's adaptive-threshold example:
broken confidences 0.9 and 0.5, whole confidence 0.8. -/
def exPredB9 : RawPred := ⟨"broken", 9/10, 50, 50, 10, 10⟩

def exPredB5 : RawPred := ⟨"broken", 1/2, 50, 50, 10, 10⟩

def exPredW8 : RawPred := ⟨"whole", 4/5, 50, 50, 10, 10⟩

def exPreds : List RawPred := [exPredB9, exPredB5, exPredW8]

theorem exBrokenMin : brokenMin exPreds = 21/40 := by
  simp +decide [brokenMin, brokenScores, listMean, exPreds, exPredB9,
    exPredB5, exPredW8, isBroken, List.filter]
  norm_num

theorem exWholeMin : wholeMin exPreds = 3/5 := by
  simp +decide [wholeMin, wholeScores, listMean, exPreds, exPredB9,
    exPredB5, exPredW8, isWhole, List.filter]
  norm_num

theorem exDetections (w h : ℚ) :
    (roboflowInfer exPreds w h).1
      = [toDetection w h exPredB9, toDetection w h exPredW8] := by
  have h9 : roboflowAccept (brokenMin exPreds) (wholeMin exPreds) exPredB9
      = true := by
    rw [exBrokenMin, exWholeMin]
    norm_num [roboflowAccept, exPredB9, isBroken]
  have h5 : roboflowAccept (brokenMin exPreds) (wholeMin exPreds) exPredB5
      = false := by
    rw [exBrokenMin, exWholeMin]
    norm_num [roboflowAccept, exPredB5, isBroken]
  have h8 : roboflowAccept (brokenMin exPreds) (wholeMin exPreds) exPredW8
      = true := by
    rw [exBrokenMin, exWholeMin]
    norm_num [roboflowAccept, exPredW8, isBroken, isWhole]
  unfold roboflowInfer
  simp only [exPreds] at h9 h5 h8 ⊢
  simp [List.filter_cons, h9, h5, h8]

/-- The remote path's detections are exactly those passing the spec-side
adaptive acceptance policy. -/
theorem roboflow_detections_spec (preds : List RawPred) (w h : ℚ) :
    (roboflowInfer preds w h).1
      = (preds.filter (specAccept preds)).map (toDetection w h) := by
  unfold roboflowInfer
  dsimp only
  rw [List.filter_congr fun p _ => roboflowAccept_eq_specAccept preds p]

/-- C3: The adaptive filter computes each category's threshold as 0.75 ×
the mean confidence of that category's recognized-label predictions (0.0
if the category is empty) and accepts a prediction iff its confidence is
≥ its category's threshold; for broken confidences [0.9, 0.5] and whole
[0.8], the threshold for broken is 0.525 and for whole 0.6, so the 0.5
broken prediction is rejected and the 0.9 broken and 0.8 whole ones are
accepted. -/
theorem C3_adaptive_threshold_spec :
    (∀ (preds : List RawPred) (w h : ℚ),
       (roboflowInfer preds w h).1
         = (preds.filter (specAccept preds)).map (toDetection w h)) ∧
    brokenMin exPreds = 21/40 ∧
    wholeMin exPreds = 3/5 ∧
    (∀ w h : ℚ,
       (roboflowInfer exPreds w h).1
         = [toDetection w h exPredB9, toDetection w h exPredW8]) := by
  exact ⟨roboflow_detections_spec, exBrokenMin, exWholeMin, exDetections⟩

/-- C4 counterexample: the detection path that `analyze` attempts first is
the local one, and on the concrete box list below it accepts a
recognized-label prediction whose confidence 0.1 is strictly below its
category's adaptive threshold 0.75 × mean(0.9, 0.1) = 0.375 — so the
first-attempted path does not enforce the adaptive policy. -/
theorem C4_counterexample :
    analyze true
        [⟨"whole_grain", 9/10, 10, 10, 20, 20⟩,
         ⟨"whole_grain", 1/10, 30, 30, 40, 40⟩]
        "key" "model" ⟨true, 200, "", []⟩ 640 640
      = .ok (yoloResult
          [⟨"whole_grain", 9/10, 10, 10, 20, 20⟩,
           ⟨"whole_grain", 1/10, 30, 30, 40, 40⟩] 640 640) ∧
    (yoloResult
        [⟨"whole_grain", 9/10, 10, 10, 20, 20⟩,
         ⟨"whole_grain", 1/10, 30, 30, 40, 40⟩] 640 640).total_grains = 2 ∧
    (1/10 : ℚ) < 0.75 * listMean [9/10, 1/10] := by
  refine ⟨analyze_local_eq _ _ _ _ _ _, ?_, ?_⟩
  · simp +decide [yoloResult, yoloInfer, mkAnalysisResult, yoloRecognized,
      List.filter]
  · simp [listMean]
    norm_num

/-- C4 amended: the detection path that `analyze` attempts first (the
local one) accepts every recognized-label prediction unconditionally —
its analysis counts every recognized box regardless of confidence — and
the adaptive-threshold policy is applied only in the remote fallback
path. -/
theorem C4_amended_local_path_unconditional :
    (∀ (boxes : List YoloBox) (apiKey modelId : String)
        (resp : RoboflowResponse) (w h : ℚ),
       analyze true boxes apiKey modelId resp w h
         = .ok (yoloResult boxes w h)) ∧
    (∀ (boxes : List YoloBox) (w h : ℚ),
       (yoloResult boxes w h).total_grains
         = (boxes.filter fun b => yoloRecognized b.cls).length) ∧
    (∀ (preds : List RawPred) (w h : ℚ),
       (roboflowInfer preds w h).1
         = (preds.filter (specAccept preds)).map (toDetection w h)) := by
  refine ⟨analyze_local_eq, ?_, roboflow_detections_spec⟩
  intro boxes w h
  simp [yoloResult, mkAnalysisResult, yoloInfer]

/-- The bounding-box invariant of the spec's CanonicalDetection:
`0 ≤ x1 ≤ x2 ≤ image_width` and `0 ≤ y1 ≤ y2 ≤ image_height`, for a box
in `(x1, y1, x2, y2)` order. -/
def bboxWithin (w h : ℚ) (bb : ℚ × ℚ × ℚ × ℚ) : Prop :=
  0 ≤ bb.1 ∧ bb.1 ≤ bb.2.2.1 ∧ bb.2.2.1 ≤ w ∧
  0 ≤ bb.2.1 ∧ bb.2.1 ≤ bb.2.2.2 ∧ bb.2.2.2 ≤ h

/-- C5 counterexample: a raw prediction with arbitrary (fully
out-of-frame) center is accepted by the remote path and yields bbox
(0, 0, -9, -9) in a 100×100 image, where x1 = 0 and x2 = -9, violating
`x1 ≤ x2` (and `0 ≤ x2`). -/
theorem C5_counterexample :
    (roboflowInfer [⟨"broken", 1/2, -10, -10, 2, 2⟩] 100 100).1
      = [⟨"broken_grain", 1/2, (0, 0, -9, -9)⟩] ∧
    ¬ bboxWithin 100 100 (0, 0, -9, -9) := by
  constructor
  · have hacc : roboflowAccept (brokenMin [⟨"broken", 1/2, -10, -10, 2, 2⟩])
        (wholeMin [⟨"broken", 1/2, -10, -10, 2, 2⟩])
        ⟨"broken", 1/2, -10, -10, 2, 2⟩ = true := by
      have hb : brokenMin [(⟨"broken", 1/2, -10, -10, 2, 2⟩ : RawPred)]
          = 3/8 := by
        simp +decide [brokenMin, brokenScores, listMean, isBroken, List.filter]
        norm_num
      rw [hb]
      norm_num [roboflowAccept, isBroken]
    unfold roboflowInfer
    dsimp only
    simp only [List.filter_cons, hacc, if_pos, List.filter_nil,
      List.map_cons, List.map_nil]
    simp [toDetection, round3, rndHalfEven, isBroken, max_def, min_def]
    norm_num
  · intro hbb
    have := hbb.2.1
    norm_num at this

/-- C5 amended: the bounding-box invariant holds for the remote path
whenever the prediction's width and height are non-negative and its
center-form box meets the image rectangle (the clipping cannot repair
boxes lying entirely outside), and for the local path whenever the
model's corner boxes are ordered and lie within the 640×640 model input
space. -/
theorem C5_amended_bbox_within (w h : ℚ) (hw : 0 ≤ w) (hh : 0 ≤ h) :
    (∀ preds : List RawPred,
       (∀ p ∈ preds, 0 ≤ p.width ∧ 0 ≤ p.height ∧
          0 ≤ p.x + p.width/2 ∧ p.x - p.width/2 ≤ w ∧
          0 ≤ p.y + p.height/2 ∧ p.y - p.height/2 ≤ h) →
       ∀ d ∈ (roboflowInfer preds w h).1, bboxWithin w h d.bbox) ∧
    (∀ boxes : List YoloBox,
       (∀ b ∈ boxes, 0 ≤ b.x1 ∧ b.x1 ≤ b.x2 ∧ b.x2 ≤ 640 ∧
          0 ≤ b.y1 ∧ b.y1 ≤ b.y2 ∧ b.y2 ≤ 640) →
       ∀ d ∈ (yoloInfer boxes w h).1, bboxWithin w h d.bbox) := by
  constructor
  · intro preds hp d hd
    unfold roboflowInfer at hd
    dsimp only at hd
    rw [List.mem_map] at hd
    obtain ⟨p, hpmem, rfl⟩ := hd
    have hpin : p ∈ preds := List.mem_of_mem_filter hpmem
    obtain ⟨hpw, hph, hxr, hxl, hyr, hyl⟩ := hp p hpin
    refine ⟨le_max_left _ _, ?_, min_le_left _ _,
            le_max_left _ _, ?_, min_le_left _ _⟩
    · exact max_le (le_min hw hxr) (le_min hxl (by linarith))
    · exact max_le (le_min hh hyr) (le_min hyl (by linarith))
  · intro boxes hb d hd
    unfold yoloInfer at hd
    dsimp only at hd
    rw [List.mem_map] at hd
    obtain ⟨b, hbmem, rfl⟩ := hd
    have hbin : b ∈ boxes := List.mem_of_mem_filter hbmem
    obtain ⟨hx1, hx12, hx2, hy1, hy12, hy2⟩ := hb b hbin
    have h640 : (0 : ℚ) < 640 := by norm_num
    refine ⟨?_, ?_, ?_, ?_, ?_, ?_⟩
    · exact div_nonneg (mul_nonneg hx1 hw) (le_of_lt h640)
    · exact (div_le_div_iff_of_pos_right h640).mpr (mul_le_mul_of_nonneg_right hx12 hw)
    · rw [div_le_iff₀ h640]
      nlinarith
    · exact div_nonneg (mul_nonneg hy1 hh) (le_of_lt h640)
    · exact (div_le_div_iff_of_pos_right h640).mpr (mul_le_mul_of_nonneg_right hy12 hh)
    · rw [div_le_iff₀ h640]
      nlinarith

/-- C5 amended witness: the spec's own clipping example — center (5,5),
size (20,20) in a 100×100 image — yields the in-bounds bbox (0,0,15,15). -/
theorem C5_amended_bbox_within_witness :
    bboxWithin 100 100
      ((toDetection 100 100 ⟨"broken", 1/2, 5, 5, 20, 20⟩).bbox) :=
  (C5_amended_bbox_within 100 100 (by norm_num) (by norm_num)).1
    [⟨"broken", 1/2, 5, 5, 20, 20⟩]
    (by
      intro p hp
      rw [List.mem_singleton] at hp
      subst hp
      norm_num)
    (toDetection 100 100 ⟨"broken", 1/2, 5, 5, 20, 20⟩)
    (by
      have hacc : specAccept [(⟨"broken", 1/2, 5, 5, 20, 20⟩ : RawPred)]
          ⟨"broken", 1/2, 5, 5, 20, 20⟩ = true := by
        simp +decide [specAccept, brokenScores, listMean, isBroken, List.filter]
        norm_num
      rw [roboflow_detections_spec]
      refine List.mem_map_of_mem _ ?_
      rw [List.mem_filter]
      exact ⟨List.mem_singleton_self _, hacc⟩)

/-- The remote variant never fails with the local-model-unavailable
error: its only failures are HTTP 503/502 conditions. -/
theorem roboflow_infer_run_not_modelUnavailable (apiKey modelId : String)
    (resp : RoboflowResponse) (w h : ℚ) :
    roboflow_infer_run apiKey modelId resp w h
      ≠ .error .modelUnavailable := by
  unfold roboflow_infer_run
  split
  · simp
  · split
    · simp
    · simp

/-- C6: When the local model artifact is absent, the analyze operation
falls back to the remote detection path and returns its AnalysisResult;
the local-unavailable error is never surfaced to the caller, while any
other failure from either variant propagates. -/
theorem C6_model_unavailable_fallback (boxes : List YoloBox)
    (apiKey modelId : String) (resp : RoboflowResponse) (w h : ℚ) :
    (∀ d c a, roboflow_infer_run apiKey modelId resp w h = .ok (d, c, a) →
       analyze false boxes apiKey modelId resp w h
         = .ok (mkAnalysisResult d c a)) ∧
    (∀ modelPresent : Bool,
       analyze modelPresent boxes apiKey modelId resp w h
         ≠ .error .modelUnavailable) ∧
    (∀ e : AppError, e ≠ .modelUnavailable →
       analyzeCombine (.error e) (roboflow_infer_run apiKey modelId resp w h)
         = .error e) ∧
    (∀ e : AppError, roboflow_infer_run apiKey modelId resp w h = .error e →
       analyze false boxes apiKey modelId resp w h = .error e) := by
  refine ⟨?_, ?_, ?_, ?_⟩
  · intro d c a hok
    simp [analyze, analyzeCombine, yoloInferRun, get_model, hok]
  · intro modelPresent
    cases modelPresent
    · cases hR : roboflow_infer_run apiKey modelId resp w h with
      | ok v =>
        obtain ⟨d, c, a⟩ := v
        simp [analyze, analyzeCombine, yoloInferRun, get_model, hR]
      | error e =>
        have hne := roboflow_infer_run_not_modelUnavailable apiKey modelId
          resp w h
        rw [hR] at hne
        simp [analyze, analyzeCombine, yoloInferRun, get_model, hR]
        simpa using hne
    · rw [analyze_local_eq]
      simp
  · intro e he
    cases e with
    | modelUnavailable => exact absurd rfl he
    | http s d => rfl
    | invalidImage => rfl
  · intro e hR
    simp [analyze, analyzeCombine, yoloInferRun, get_model, hR]

/-- C6 witness: with the artifact absent, a configured key and a
successful (empty) remote response, analyze returns the remote result. -/
theorem C6_model_unavailable_fallback_witness :
    analyze false [] "k" "m" ⟨true, 200, "", []⟩ 100 100
      = .ok (mkAnalysisResult (roboflowInfer [] 100 100).1
          (roboflowInfer [] 100 100).2.1 (roboflowInfer [] 100 100).2.2) :=
  (C6_model_unavailable_fallback [] "k" "m" ⟨true, 200, "", []⟩ 100 100).1
    (roboflowInfer [] 100 100).1 (roboflowInfer [] 100 100).2.1
    (roboflowInfer [] 100 100).2.2 (by rfl)

/-- C7 counterexample: with a non-empty credential but an empty model
identifier, the remote variant does not fail with the 503 configuration
error — it proceeds to use the network response (here a successful empty
one) — refuting that either missing value is checked. -/
theorem C7_counterexample :
    roboflow_infer_run "key" "" ⟨true, 200, "", []⟩ 100 100
      = .ok (roboflowInfer [] 100 100) ∧
    roboflow_infer_run "key" "" ⟨true, 200, "", []⟩ 100 100
      ≠ .error (.http 503 "Roboflow API key missing") := by
  constructor
  · rfl
  · intro hcontra
    simp [roboflow_infer_run] at hcontra

/-- C7 amended: the remote variant fails with the 503 configuration error
before any network call iff the access credential is missing or empty;
the model identifier is never validated (it only shapes the URL), and
with a non-empty credential the variant proceeds on the response. -/
theorem C7_amended_config_check (modelId : String) (resp : RoboflowResponse)
    (w h : ℚ) :
    (∀ apiKey : String, apiKey = "" →
       roboflow_infer_run apiKey modelId resp w h
         = .error (.http 503 "Roboflow API key missing")) ∧
    (∀ apiKey : String, apiKey ≠ "" → resp.ok = true →
       roboflow_infer_run apiKey modelId resp w h
         = .ok (roboflowInfer resp.predictions w h)) := by
  constructor
  · intro apiKey hk
    subst hk
    rfl
  · intro apiKey hk hok
    simp [roboflow_infer_run, hk, hok]

/-- C7 amended witness: the configuration failure at the empty credential. -/
theorem C7_amended_config_check_witness :
    roboflow_infer_run "" "m" ⟨true, 200, "", []⟩ 100 100
      = .error (.http 503 "Roboflow API key missing") :=
  (C7_amended_config_check "m" ⟨true, 200, "", []⟩ 100 100).1 "" rfl

/-- C8: the resize operation returns the input bytes unchanged when the
long side is within `maxLongSide`, and otherwise re-encodes at uniformly
scaled, integer-truncated dimensions whose long side equals
`maxLongSide`; concretely, dimensions 2000×1000 with bound 1280 become
1280×640. -/
theorem C8_resize_spec (bytes : List ℕ) (h w maxLS : ℕ) :
    (max h w ≤ maxLS →
       resize_image_for_roboflow bytes h w maxLS = Sum.inl bytes) ∧
    (maxLS < max h w →
       resize_image_for_roboflow bytes h w maxLS
         = Sum.inr ((⌊(w : ℚ) * ((maxLS : ℚ) / (max h w : ℚ))⌋).toNat,
                    (⌊(h : ℚ) * ((maxLS : ℚ) / (max h w : ℚ))⌋).toNat) ∧
       max ((⌊(h : ℚ) * ((maxLS : ℚ) / (max h w : ℚ))⌋).toNat)
           ((⌊(w : ℚ) * ((maxLS : ℚ) / (max h w : ℚ))⌋).toNat) = maxLS) ∧
    resize_image_for_roboflow bytes 2000 1000 1280 = Sum.inr (640, 1280) := by
  have keyLong : ∀ L s : ℕ, maxLS < L → s ≤ L →
      (⌊(s : ℚ) * ((maxLS : ℚ) / (L : ℚ))⌋).toNat ≤ maxLS ∧
      ((⌊(L : ℚ) * ((maxLS : ℚ) / (L : ℚ))⌋).toNat = maxLS) := by
    intro L s hL hs
    have hLpos : 0 < L := lt_of_le_of_lt (Nat.zero_le maxLS) hL
    have hL0 : (0 : ℚ) < (L : ℚ) := by exact_mod_cast hLpos
    constructor
    · have hle : (s : ℚ) * ((maxLS : ℚ) / (L : ℚ)) ≤ (maxLS : ℚ) := by
        rw [mul_div_assoc']
        rw [div_le_iff₀ hL0]
        have hsq : (s : ℚ) ≤ (L : ℚ) := by exact_mod_cast hs
        nlinarith [Nat.cast_nonneg (α := ℚ) maxLS]
      have hfle : ⌊(s : ℚ) * ((maxLS : ℚ) / (L : ℚ))⌋ ≤ (maxLS : ℤ) := by
        have := Int.floor_mono hle
        rwa [Int.floor_natCast] at this
      omega
    · have hexact : (L : ℚ) * ((maxLS : ℚ) / (L : ℚ)) = (maxLS : ℚ) := by
        field_simp
      rw [hexact, Int.floor_natCast]
      exact Int.toNat_natCast maxLS
  refine ⟨?_, ?_, ?_⟩
  · intro hle
    unfold resize_image_for_roboflow
    rw [if_pos hle]
  · intro hlt
    have hnle : ¬ (max h w ≤ maxLS) := not_le.mpr hlt
    constructor
    · unfold resize_image_for_roboflow
      rw [if_neg hnle]
    · rcases le_total h w with hhw | hhw
      · have hmaxq : ((h : ℚ) ⊔ (w : ℚ)) = (w : ℚ) :=
          max_eq_right (by exact_mod_cast hhw)
        have hltw : maxLS < w := by
          rwa [max_eq_right hhw] at hlt
        rw [hmaxq]
        have hw2 := (keyLong w w hltw (le_refl w)).2
        have hh2 := (keyLong w h hltw hhw).1
        rw [hw2]
        exact max_eq_right hh2
      · have hmaxq : ((h : ℚ) ⊔ (w : ℚ)) = (h : ℚ) :=
          max_eq_left (by exact_mod_cast hhw)
        have hlth : maxLS < h := by
          rwa [max_eq_left hhw] at hlt
        rw [hmaxq]
        have hh2 := (keyLong h h hlth (le_refl h)).2
        have hw2 := (keyLong h w hlth hhw).1
        rw [hh2]
        exact max_eq_left hw2
  · unfold resize_image_for_roboflow
    norm_num
    exact ⟨rfl, rfl⟩

/-- C8 witness: the scaling branch at dimensions 2000×1000 with the
default bound 1280. -/
theorem C8_resize_spec_witness :
    resize_image_for_roboflow [1, 2, 3] 2000 1000 1280
      = Sum.inr ((⌊(1000 : ℚ) * ((1280 : ℚ) / ((max 2000 1000 : ℕ) : ℚ))⌋).toNat,
                 (⌊(2000 : ℚ) * ((1280 : ℚ) / ((max 2000 1000 : ℕ) : ℚ))⌋).toNat) ∧
    max ((⌊(2000 : ℚ) * ((1280 : ℚ) / ((max 2000 1000 : ℕ) : ℚ))⌋).toNat)
        ((⌊(1000 : ℚ) * ((1280 : ℚ) / ((max 2000 1000 : ℕ) : ℚ))⌋).toNat) = 1280 :=
  (C8_resize_spec [1, 2, 3] 2000 1000 1280).2.1 (by norm_num)

theorem brokenScores_filter_recognized (preds : List RawPred) :
    brokenScores (preds.filter fun p => isBroken p.cls || isWhole p.cls)
      = brokenScores preds := by
  unfold brokenScores
  rw [List.filter_filter]
  congr 1
  apply List.filter_congr
  intro p _
  by_cases hb : isBroken p.cls = true <;> simp [hb]

theorem wholeScores_filter_recognized (preds : List RawPred) :
    wholeScores (preds.filter fun p => isBroken p.cls || isWhole p.cls)
      = wholeScores preds := by
  unfold wholeScores
  rw [List.filter_filter]
  congr 1
  apply List.filter_congr
  intro p _
  by_cases hw : isWhole p.cls = true <;> simp [hw]

theorem accepted_filter_recognized (bMin wMin : ℚ) (preds : List RawPred) :
    (preds.filter fun p => isBroken p.cls || isWhole p.cls).filter
        (roboflowAccept bMin wMin)
      = preds.filter (roboflowAccept bMin wMin) := by
  rw [List.filter_filter]
  apply List.filter_congr
  intro p _
  by_cases hb : isBroken p.cls = true
  · simp [roboflowAccept, hb]
  · by_cases hw : isWhole p.cls = true
    · simp [roboflowAccept, hb, hw]
    · simp [roboflowAccept, hb, hw]

/-- C9: Predictions whose class label is not in the recognized synonym
sets are discarded entirely by both detection paths: deleting them from
the input changes nothing — not the detections (hence not the annotated
set), not the counts (hence not total_grains), and not the confidence
list (hence not avg_model_confidence), nor even the adaptive
thresholds. -/
theorem C9_unrecognized_discarded (preds : List RawPred)
    (boxes : List YoloBox) (w h : ℚ) :
    roboflowInfer (preds.filter fun p => isBroken p.cls || isWhole p.cls) w h
      = roboflowInfer preds w h ∧
    yoloInfer (boxes.filter fun b => yoloRecognized b.cls) w h
      = yoloInfer boxes w h := by
  constructor
  · unfold roboflowInfer brokenMin wholeMin
    dsimp only
    rw [brokenScores_filter_recognized, wholeScores_filter_recognized,
      accepted_filter_recognized]
  · unfold yoloInfer
    dsimp only
    rw [List.filter_filter,
      List.filter_congr fun b _ => Bool.and_self (yoloRecognized b.cls)]

/-- C10: When every broken-labeled prediction has confidence 0.0, the
broken mean and hence the broken threshold is 0, and every broken
prediction is accepted (rejection needs confidence strictly below the
threshold); such zero-confidence detections are therefore counted in the
broken count (hence in total_grains) and their confidences belong to the
list over which avg_model_confidence is averaged. -/
theorem C10_zero_confidence_accepted (preds : List RawPred) (w h : ℚ)
    (hz : ∀ p ∈ preds, isBroken p.cls = true → p.conf = 0) :
    brokenMin preds = 0 ∧
    (∀ p ∈ preds, isBroken p.cls = true →
       roboflowAccept (brokenMin preds) (wholeMin preds) p = true) ∧
    (roboflowInfer preds w h).2.1.broken
      = (preds.filter fun p => isBroken p.cls).length ∧
    (∀ p ∈ preds, isBroken p.cls = true →
       p.conf ∈ (preds.filter
         (roboflowAccept (brokenMin preds) (wholeMin preds))).map (·.conf)) := by
  have hall : ∀ q ∈ brokenScores preds, q = 0 := by
    intro q hq
    unfold brokenScores at hq
    rw [List.mem_map] at hq
    obtain ⟨p, hp, rfl⟩ := hq
    rw [List.mem_filter] at hp
    exact hz p hp.1 hp.2
  have hbm : brokenMin preds = 0 := by
    unfold brokenMin listMean
    split
    · ring
    · rw [List.sum_eq_zero hall]
      simp
  have hacc : ∀ p ∈ preds, isBroken p.cls = true →
      roboflowAccept (brokenMin preds) (wholeMin preds) p = true := by
    intro p hp hb
    simp [roboflowAccept, hb, hbm, hz p hp hb]
  refine ⟨hbm, hacc, ?_, ?_⟩
  · unfold roboflowInfer
    dsimp only
    rw [List.filter_filter]
    congr 1
    apply List.filter_congr
    intro p hp
    by_cases hb : isBroken p.cls = true
    · simp [hb, hacc p hp hb]
    · simp [hb]
  · intro p hp hb
    exact List.mem_map_of_mem _
      (List.mem_filter.mpr ⟨hp, hacc p hp hb⟩)

/-- C10 witness: a single broken prediction with confidence exactly 0.0 is
accepted, counted, and its confidence enters the averaged list. -/
theorem C10_zero_confidence_accepted_witness :
    brokenMin [(⟨"broken", 0, 50, 50, 10, 10⟩ : RawPred)] = 0 ∧
    (∀ p ∈ [(⟨"broken", 0, 50, 50, 10, 10⟩ : RawPred)], isBroken p.cls = true →
       roboflowAccept (brokenMin [(⟨"broken", 0, 50, 50, 10, 10⟩ : RawPred)])
         (wholeMin [(⟨"broken", 0, 50, 50, 10, 10⟩ : RawPred)]) p = true) ∧
    (roboflowInfer [(⟨"broken", 0, 50, 50, 10, 10⟩ : RawPred)] 100 100).2.1.broken
      = ([(⟨"broken", 0, 50, 50, 10, 10⟩ : RawPred)].filter
          fun p => isBroken p.cls).length ∧
    (∀ p ∈ [(⟨"broken", 0, 50, 50, 10, 10⟩ : RawPred)], isBroken p.cls = true →
       p.conf ∈ ([(⟨"broken", 0, 50, 50, 10, 10⟩ : RawPred)].filter
         (roboflowAccept (brokenMin [(⟨"broken", 0, 50, 50, 10, 10⟩ : RawPred)])
           (wholeMin [(⟨"broken", 0, 50, 50, 10, 10⟩ : RawPred)]))).map (·.conf)) :=
  C10_zero_confidence_accepted [(⟨"broken", 0, 50, 50, 10, 10⟩ : RawPred)] 100 100
    (by
      intro p hp hb
      rw [List.mem_singleton] at hp
      subst hp
      rfl)

end RiceGuard
